import Mathlib

/-!
Verification of the tweet-pilot repository's core logic against its
natural-language specification.

The development shallowly embeds the Python sources:

* `src/research_client.py` — `ResearchClient.research_with_search`,
  `ResearchClient.research_without_search`, `ResearchClient.generate_thread`;
* `src/twitter_client.py` — `TwitterClient.post_thread`;
* `src/thread_generator.py` — `Thread.to_dict` / `Thread.from_dict`,
  `ThreadGenerator.save_thread`, `ThreadGenerator.load_threads`.

Python strings are modelled as `List Char` (`Str`).  JSON values produced by
Python's `json` module are modelled by the inductive type `PyObj`; Python
`dict`s appear as ordered association lists (insertion order), which is how
`json.dump` serialises them and strictly refines Python's `==` on the values
arising here.  The external collaborators (the generative-AI backend, the
social platform SDK and the `json`/file-I/O helpers, all declared out of
scope by the specification) enter as parameters: the backend as an
`Except Str Str` (raised message or response text), the platform as an
indexed call oracle, and the JSON parser as a `Str → Option PyObj`
parameter; a concrete executable parser `jparse`, faithful to Python's
`json.loads` on the fragment exercised by the concrete inputs below
(null/true/false, integers without leading zeros, escaped strings, arrays,
objects, JSON whitespace), instantiates it in witnesses and counterexamples.
-/

open List

abbrev Str := List Char

/-- Shorthand turning a Lean string literal into the `List Char` model. -/
def S (s : String) : Str := s.data

/-- Model of the values Python's `json` module reads and writes.  Objects are
ordered association lists (dict insertion order). -/
inductive PyObj where
  | null : PyObj
  | bool (b : Bool) : PyObj
  | num (n : Int) : PyObj
  | str (s : Str) : PyObj
  | arr (l : List PyObj) : PyObj
  | obj (kvs : List (Str × PyObj)) : PyObj
deriving Repr

mutual

/-- Decidable equality for `PyObj` (the nested occurrence of `PyObj` under
`List` prevents automatic derivation). -/
def PyObj.deq : (a b : PyObj) → Decidable (a = b)
  | .null, .null => isTrue rfl
  | .bool a, .bool b =>
    match decEq a b with
    | isTrue h => isTrue (h ▸ rfl)
    | isFalse h => isFalse (fun e => by injection e with h2; exact h h2)
  | .num a, .num b =>
    match decEq a b with
    | isTrue h => isTrue (h ▸ rfl)
    | isFalse h => isFalse (fun e => by injection e with h2; exact h h2)
  | .str a, .str b =>
    match decEq a b with
    | isTrue h => isTrue (h ▸ rfl)
    | isFalse h => isFalse (fun e => by injection e with h2; exact h h2)
  | .arr a, .arr b =>
    match PyObj.deqList a b with
    | isTrue h => isTrue (h ▸ rfl)
    | isFalse h => isFalse (fun e => by injection e with h2; exact h h2)
  | .obj a, .obj b =>
    match PyObj.deqKvs a b with
    | isTrue h => isTrue (h ▸ rfl)
    | isFalse h => isFalse (fun e => by injection e with h2; exact h h2)
  | .null, .bool _ => isFalse (fun e => by injection e)
  | .null, .num _ => isFalse (fun e => by injection e)
  | .null, .str _ => isFalse (fun e => by injection e)
  | .null, .arr _ => isFalse (fun e => by injection e)
  | .null, .obj _ => isFalse (fun e => by injection e)
  | .bool _, .null => isFalse (fun e => by injection e)
  | .bool _, .num _ => isFalse (fun e => by injection e)
  | .bool _, .str _ => isFalse (fun e => by injection e)
  | .bool _, .arr _ => isFalse (fun e => by injection e)
  | .bool _, .obj _ => isFalse (fun e => by injection e)
  | .num _, .null => isFalse (fun e => by injection e)
  | .num _, .bool _ => isFalse (fun e => by injection e)
  | .num _, .str _ => isFalse (fun e => by injection e)
  | .num _, .arr _ => isFalse (fun e => by injection e)
  | .num _, .obj _ => isFalse (fun e => by injection e)
  | .str _, .null => isFalse (fun e => by injection e)
  | .str _, .bool _ => isFalse (fun e => by injection e)
  | .str _, .num _ => isFalse (fun e => by injection e)
  | .str _, .arr _ => isFalse (fun e => by injection e)
  | .str _, .obj _ => isFalse (fun e => by injection e)
  | .arr _, .null => isFalse (fun e => by injection e)
  | .arr _, .bool _ => isFalse (fun e => by injection e)
  | .arr _, .num _ => isFalse (fun e => by injection e)
  | .arr _, .str _ => isFalse (fun e => by injection e)
  | .arr _, .obj _ => isFalse (fun e => by injection e)
  | .obj _, .null => isFalse (fun e => by injection e)
  | .obj _, .bool _ => isFalse (fun e => by injection e)
  | .obj _, .num _ => isFalse (fun e => by injection e)
  | .obj _, .str _ => isFalse (fun e => by injection e)
  | .obj _, .arr _ => isFalse (fun e => by injection e)

/-- Decidable equality for lists of `PyObj`. -/
def PyObj.deqList : (a b : List PyObj) → Decidable (a = b)
  | [], [] => isTrue rfl
  | [], _ :: _ => isFalse (fun e => by injection e)
  | _ :: _, [] => isFalse (fun e => by injection e)
  | a :: as, b :: bs =>
    match PyObj.deq a b, PyObj.deqList as bs with
    | isTrue h1, isTrue h2 => isTrue (h1 ▸ h2 ▸ rfl)
    | isFalse h1, _ => isFalse (fun e => by injection e with e1 e2; exact h1 e1)
    | _, isFalse h2 => isFalse (fun e => by injection e with e1 e2; exact h2 e2)

/-- Decidable equality for `PyObj` association lists. -/
def PyObj.deqKvs : (a b : List (Str × PyObj)) → Decidable (a = b)
  | [], [] => isTrue rfl
  | [], _ :: _ => isFalse (fun e => by injection e)
  | _ :: _, [] => isFalse (fun e => by injection e)
  | (k1, v1) :: as, (k2, v2) :: bs =>
    match decEq k1 k2, PyObj.deq v1 v2, PyObj.deqKvs as bs with
    | isTrue h1, isTrue h2, isTrue h3 => isTrue (by rw [h1, h2, h3])
    | isFalse h1, _, _ =>
      isFalse (fun e => by
        injection e with e1 e2
        exact h1 (congrArg Prod.fst e1))
    | _, isFalse h2, _ =>
      isFalse (fun e => by
        injection e with e1 e2
        exact h2 (congrArg Prod.snd e1))
    | _, _, isFalse h3 =>
      isFalse (fun e => by injection e with e1 e2; exact h3 e2)

end

instance : DecidableEq PyObj := PyObj.deq

/-- Python `dict` lookup on the association-list model: later occurrences of
a key overwrite earlier ones, as in `dict` construction by `json.loads`. -/
def pyGet (k : Str) (kvs : List (Str × PyObj)) : Option PyObj :=
  (kvs.reverse.find? (fun p => p.1 = k)).map (fun p => p.2)

/-- The whitespace set of Python's `str.strip()` (ASCII fragment):
space, tab, newline, carriage return, vertical tab, form feed. -/
def isPyWs (c : Char) : Bool :=
  c = ' ' || c = '\t' || c = '\n' || c = '\r' || c = '\x0b' || c = '\x0c'

/-- Python `text.strip()` on the `List Char` model. -/
def pyStrip (s : Str) : Str :=
  ((s.dropWhile isPyWs).reverse.dropWhile isPyWs).reverse

/-- Python `text.split(sep)` for a one-character separator: splits at every
occurrence, keeping empty fields (`"".split` gives `[""]`). -/
def pySplit (c : Char) : Str → List Str
  | [] => [[]]
  | a :: rest =>
    match pySplit c rest with
    | [] => [[]]
    | l :: ls => if a = c then [] :: l :: ls else (a :: l) :: ls

/-- Python `sep.join(fields)` for a one-character separator. -/
def pyJoin (c : Char) (ls : List Str) : Str :=
  match ls with
  | [] => []
  | [l] => l
  | l :: ls => l ++ c :: pyJoin c ls

/-- The three-character fence marker of a fenced code block. -/
def fenceS : String := "```"

def fence : Str := fenceS.data

/-- The code-block cleanup shared verbatim by
`ResearchClient.research_with_search` (research_client.py lines 66-74) and
`ResearchClient.generate_thread` (lines 170-178): when the text starts and
ends with the fence marker and has more than two lines, drop the first and
last line, then drop one more line when the remainder starts with `json` or
`JSON`. -/
def stripFences (text : Str) : Str :=
  if fence.isPrefixOf text && fence.isSuffixOf text then
    let lines := pySplit '\n' text
    if lines.length > 2 then
      let text2 := pyJoin '\n' (lines.drop 1).dropLast
      if (S "json").isPrefixOf text2 || (S "JSON").isPrefixOf text2 then
        pyJoin '\n' ((pySplit '\n' text2).drop 1)
      else text2
    else text
  else text

/-- The string actually handed to `json.loads` by the cleanup pipeline of
`research_with_search` / `generate_thread`: outer `strip()`, fence removal,
final `strip()`. -/
def extractInput (raw : Str) : Str :=
  pyStrip (stripFences (pyStrip raw))

/-- The extraction stage (after the empty-response check) of
`research_with_search` / `generate_thread`, parametric in the JSON parser:
the parsed value, or `none` on a `json.JSONDecodeError`. -/
def extractValue (parse : Str → Option PyObj) (raw : Str) : Option PyObj :=
  parse (extractInput raw)

/-- The error dictionary literals returned by `ResearchClient`. -/
def errObj (kind details : Str) : PyObj :=
  .obj [(S "error", .str kind), (S "details", .str details)]

/-- `ResearchClient.research_with_search` (research_client.py lines 50-88)
after the backend call: a raised backend exception becomes the
`Research failed` dictionary, an empty response the `No response generated`
dictionary; otherwise the response is stripped, fence-cleaned and parsed,
a parse failure becoming the `Invalid JSON response` dictionary carrying the
cleaned text. -/
def research_with_search (parse : Str → Option PyObj)
    (backend : Except Str Str) : PyObj :=
  match backend with
  | .error e => errObj (S "Research failed") e
  | .ok rt =>
    if rt = [] then
      errObj (S "No response generated") (S "The model did not return any content")
    else
      let text := stripFences (pyStrip rt)
      match parse (pyStrip text) with
      | some j => j
      | none => errObj (S "Invalid JSON response") text

/-- `ResearchClient.research_without_search` (research_client.py lines
90-136): identical backend and emptiness handling, but the response text is
handed to `json.loads` directly — no `strip()` and no fence cleanup — and a
parse failure carries the raw response text. -/
def research_without_search (parse : Str → Option PyObj)
    (backend : Except Str Str) : PyObj :=
  match backend with
  | .error e => errObj (S "Research failed") e
  | .ok rt =>
    if rt = [] then
      errObj (S "No response generated") (S "The model did not return any content")
    else
      match parse rt with
      | some j => j
      | none => errObj (S "Invalid JSON response") rt

/-- `ResearchClient.generate_thread` (research_client.py lines 138-189).
Every failure path escapes through the outer `except Exception`, so each
message is prefixed with `Failed to generate thread: `.  A parsed non-empty
JSON array is returned unchanged (its elements are not inspected); any other
parsed value raises `Invalid tweet list format`. -/
def generate_thread (parse : Str → Option PyObj)
    (backend : Except Str Str) : Except Str (List PyObj) :=
  let pre := S "Failed to generate thread: "
  match backend with
  | .error e => .error (pre ++ e)
  | .ok rt =>
    if rt = [] then .error (pre ++ S "No response generated")
    else
      let text := stripFences (pyStrip rt)
      match parse (pyStrip text) with
      | none => .error (pre ++ S "Failed to parse tweets: " ++ text)
      | some v =>
        match v with
        | .arr (t :: ts) => .ok (t :: ts)
        | _ => .error (pre ++ S "Invalid tweet list format")

/-- Fenced wrapping of a response: an opening fence line optionally carrying
a language tag, the body, and a closing fence line. -/
def wrapFence (tag body : Str) : Str :=
  fence ++ tag ++ '\n' :: body ++ '\n' :: fence

/-! ### A concrete JSON parser

`jparse` instantiates the parser parameter in witnesses and counterexamples.
It implements the JSON grammar as accepted by Python's `json.loads` on the
fragment those concrete inputs use: `null`/`true`/`false`, integers (no
leading zeros; the float productions `.`/`e`/`E` are outside the fragment
and rejected), strings with the simple escapes, arrays, objects, and the
JSON whitespace characters space/tab/newline/carriage-return. -/

/-- Skip JSON whitespace (which is a strict subset of Python's
`str.strip()` whitespace: no vertical tab or form feed). -/
def skipWs (s : Str) : Str :=
  s.dropWhile (fun c => c = ' ' || c = '\t' || c = '\n' || c = '\r')

/-- Parse the remainder of a JSON string literal (after the opening quote),
returning the decoded content and the input after the closing quote. -/
def parseStringBody (fuel : Nat) (s : Str) : Option (Str × Str) :=
  match fuel, s with
  | 0, _ => none
  | _, [] => none
  | f + 1, c :: rest =>
    if c = '"' then some ([], rest)
    else if c = '\\' then
      match rest with
      | [] => none
      | e :: rest2 =>
        let dec : Option Char :=
          if e = '"' then some '"'
          else if e = '\\' then some '\\'
          else if e = '/' then some '/'
          else if e = 'n' then some '\n'
          else if e = 't' then some '\t'
          else if e = 'r' then some '\r'
          else none
        match dec with
        | none => none
        | some d => (parseStringBody f rest2).map (fun p => (d :: p.1, p.2))
    else if c.toNat < 32 then none
    else (parseStringBody f rest).map (fun p => (c :: p.1, p.2))

/-- Parse a JSON integer (optional minus, digit run, no leading zeros),
rejecting the float continuations `.`, `e`, `E`. -/
def parseIntTok (s : Str) : Option (Int × Str) :=
  let core : Str → Option (Nat × Str) := fun t =>
    let ds := t.takeWhile Char.isDigit
    let rest := t.dropWhile Char.isDigit
    match ds with
    | [] => none
    | d :: ds' =>
      if d = '0' && ds' ≠ [] then none
      else
        match rest with
        | r :: _ => if r = '.' || r = 'e' || r = 'E' then none
                    else some (ds.foldl (fun a c => a * 10 + (c.toNat - 48)) 0, rest)
        | [] => some (ds.foldl (fun a c => a * 10 + (c.toNat - 48)) 0, rest)
  match s with
  | '-' :: t => (core t).map (fun p => (-(p.1 : Int), p.2))
  | t => (core t).map (fun p => ((p.1 : Int), p.2))

mutual

/-- Parse one JSON value, returning it and the unconsumed input. -/
def parseVal (fuel : Nat) (s : Str) : Option (PyObj × Str) :=
  match fuel with
  | 0 => none
  | f + 1 =>
    match skipWs s with
    | [] => none
    | c :: rest =>
      if c = 'n' then
        if (S "ull").isPrefixOf rest then some (.null, rest.drop 3) else none
      else if c = 't' then
        if (S "rue").isPrefixOf rest then some (.bool true, rest.drop 3) else none
      else if c = 'f' then
        if (S "alse").isPrefixOf rest then some (.bool false, rest.drop 4) else none
      else if c = '"' then
        (parseStringBody f rest).map (fun p => (.str p.1, p.2))
      else if c = '[' then
        match skipWs rest with
        | ']' :: r => some (.arr [], r)
        | s2 => (parseElems f s2).map (fun p => (.arr p.1, p.2))
      else if c = '\x7b' then
        match skipWs rest with
        | '\x7d' :: r => some (.obj [], r)
        | s2 => (parseMembers f s2).map (fun p => (.obj p.1, p.2))
      else
        (parseIntTok (c :: rest)).map (fun p => (.num p.1, p.2))

/-- Parse the non-empty element list of a JSON array, consuming the
closing bracket. -/
def parseElems (fuel : Nat) (s : Str) : Option (List PyObj × Str) :=
  match fuel with
  | 0 => none
  | f + 1 =>
    match parseVal f s with
    | none => none
    | some (v, r) =>
      match skipWs r with
      | ',' :: r2 => (parseElems f r2).map (fun p => (v :: p.1, p.2))
      | ']' :: r2 => some ([v], r2)
      | _ => none

/-- Parse the non-empty member list of a JSON object, consuming the
closing brace. -/
def parseMembers (fuel : Nat) (s : Str) : Option (List (Str × PyObj) × Str) :=
  match fuel with
  | 0 => none
  | f + 1 =>
    match skipWs s with
    | '"' :: r =>
      match parseStringBody f r with
      | none => none
      | some (k, r2) =>
        match skipWs r2 with
        | ':' :: r3 =>
          match parseVal f r3 with
          | none => none
          | some (v, r4) =>
            match skipWs r4 with
            | ',' :: r5 => (parseMembers f r5).map (fun p => ((k, v) :: p.1, p.2))
            | '\x7d' :: r5 => some ([(k, v)], r5)
            | _ => none
        | _ => none
    | _ => none

end

/-- The concrete model of `json.loads` on the documented fragment: parse one
value and require only whitespace to remain. -/
def jparse (s : Str) : Option PyObj :=
  match parseVal (3 * s.length + 3) s with
  | some (v, r) => if skipWs r = [] then some v else none
  | none => none

/-! ### `TwitterClient.post_thread` (twitter_client.py lines 45-73)

The platform SDK is a parameter: an oracle mapping the call number and the
call payload to the assigned id or a raised `tweepy.TweepyException`
message.  Alongside the result the model returns the transcript of calls
actually issued, so that theorems can speak about which posts were
attempted and with which reply-to reference. -/

/-- One `client.create_tweet` invocation: the tweet text and the
`in_reply_to_tweet_id` argument (`none` when the parameter was omitted). -/
structure TweetCall where
  text : Str
  reply_to : Option Str
deriving DecidableEq, Repr

/-- Python truthiness of the `previous_tweet_id` variable (`None` and the
empty string are falsy), which guards the `in_reply_to_tweet_id` argument. -/
def truthy : Option Str → Bool
  | none => false
  | some s => !s.isEmpty

/-- The `for tweet in tweets` loop of `post_thread`: issue one
`create_tweet` per tweet, threading the previously assigned id, and abort
with `TwitterAPIError` on the first raised exception. -/
def post_thread_loop (api : Nat → TweetCall → Except Str Str) :
    List Str → Nat → Option Str → List Str → List TweetCall →
    Except Str (List Str) × List TweetCall
  | [], _, _, ids, log => (.ok ids, log)
  | t :: ts, i, prev, ids, log =>
    let call : TweetCall := ⟨t, if truthy prev then prev else none⟩
    match api i call with
    | .error e => (.error (S "Failed to post thread: " ++ e), log ++ [call])
    | .ok id => post_thread_loop api ts (i + 1) (some id) (ids ++ [id]) (log ++ [call])

/-- `TwitterClient.post_thread`: returns the raised-or-returned result and
the transcript of platform calls. -/
def post_thread (api : Nat → TweetCall → Except Str Str) (tweets : List Str) :
    Except Str (List Str) × List TweetCall :=
  post_thread_loop api tweets 0 none [] []

/-- The call transcript a fully successful run produces, by construction of
the loop: each call carries the previously assigned id when that id is
truthy. -/
def expCalls (f : Nat → Str) : List Str → Nat → Option Str → List TweetCall
  | [], _, _ => []
  | t :: ts, i, prev =>
    ⟨t, if truthy prev then prev else none⟩ :: expCalls f ts (i + 1) (some (f i))

/-! ### `Thread` and its persistence (thread_generator.py)

`datetime` values are modelled by their `isoformat()` strings, which is
faithful because `datetime.isoformat` / `datetime.fromisoformat` are
mutually inverse on microsecond-precision datetimes; validity of the string
handed to `fromisoformat` is not modelled (every claim exercises timestamps
produced by `isoformat`).  The on-disk file is modelled by `FileState`:
absent, unparseable, or holding a JSON value. -/

/-- `Thread` (thread_generator.py lines 8-23).  `from_dict` performs no type
checking on `topic`/`tweets`/`research_data`, so those fields hold raw
`PyObj` values; `tweet_ids` holds `PyObj.null` for Python `None`. -/
structure Thread where
  topic : PyObj
  tweets : PyObj
  research_data : PyObj
  created_at : Str
  tweet_ids : PyObj
deriving DecidableEq, Repr

/-- `Thread.to_dict` (lines 25-33). -/
def Thread.to_dict (t : Thread) : PyObj :=
  .obj [(S "topic", t.topic),
        (S "tweets", t.tweets),
        (S "research_data", t.research_data),
        (S "created_at", .str t.created_at),
        (S "tweet_ids", t.tweet_ids)]

/-- `Thread.from_dict` (lines 35-45): `none` models the exception Python
raises there — a `KeyError` for a missing `topic`/`tweets`/`research_data`/
`created_at` key, a `TypeError` from `datetime.fromisoformat` on a
non-string `created_at`, or a `TypeError` from subscripting a non-dict.
`tweet_ids` uses `data.get`, absent meaning `None`. -/
def Thread.from_dict (d : PyObj) : Option Thread :=
  match d with
  | .obj kvs =>
    match pyGet (S "topic") kvs, pyGet (S "tweets") kvs,
          pyGet (S "research_data") kvs, pyGet (S "created_at") kvs with
    | some tp, some tw, some rd, some (.str ca) =>
      some ⟨tp, tw, rd, ca, (pyGet (S "tweet_ids") kvs).getD .null⟩
    | _, _, _, _ => none
  | _ => none

/-- The on-disk state of the history file. -/
inductive FileState where
  | absent : FileState
  | corrupt : FileState
  | content (j : PyObj) : FileState
deriving DecidableEq, Repr

/-- Python iteration over a JSON-loaded value, as used by the list
comprehension in `load_threads`: arrays yield elements, dicts their keys,
strings their characters; other values raise `TypeError`. -/
def pyIter : PyObj → Option (List PyObj)
  | .arr l => some l
  | .obj kvs => some (kvs.map (fun p => .str p.1))
  | .str s => some (s.map (fun c => .str [c]))
  | _ => none

/-- `ThreadGenerator.save_thread` (lines 107-129): load the existing
history, treating an absent or unparseable file as `[]`; append the
serialized thread; write back.  When the file parses to a non-list JSON
value, `threads.append` raises an `AttributeError`, rewrapped as
`ThreadStorageError` — modelled by `.error ()`.  A successful write yields
the new file state. -/
def save_thread (st : FileState) (t : Thread) : Except Unit FileState :=
  let threads : PyObj :=
    match st with
    | .content j => j
    | _ => .arr []
  match threads with
  | .arr l => .ok (.content (.arr (l ++ [t.to_dict])))
  | _ => .error ()

/-- The list comprehension `[Thread.from_dict(data) for data in
threads_data]`: entries convert left to right, the first exception
aborting the whole conversion. -/
def fromDictList : List PyObj → Option (List Thread)
  | [] => some []
  | d :: ds =>
    match Thread.from_dict d, fromDictList ds with
    | some t, some ts => some (t :: ts)
    | _, _ => none

/-- `ThreadGenerator.load_threads` (lines 131-147): an absent or
unparseable file yields `[]`; otherwise every iterated entry must pass
`Thread.from_dict`, any exception there escaping as `ThreadStorageError`
(`.error ()`). -/
def load_threads (st : FileState) : Except Unit (List Thread) :=
  match st with
  | .absent => .ok []
  | .corrupt => .ok []
  | .content j =>
    match pyIter j with
    | none => .error ()
    | some ds =>
      match fromDictList ds with
      | none => .error ()
      | some ts => .ok ts

/-! ### Lemmas about the Python string primitives -/

theorem pySplit_ne_nil (c : Char) (s : Str) : pySplit c s ≠ [] := by
  cases s with
  | nil => simp [pySplit]
  | cons a rest =>
    simp only [pySplit]
    rcases h : pySplit c rest with _ | ⟨l, ls⟩
    · simp
    · by_cases hc : a = c <;> simp [hc]

theorem pyJoin_pySplit (c : Char) (s : Str) : pyJoin c (pySplit c s) = s := by
  induction s with
  | nil => rfl
  | cons a rest ih =>
    simp only [pySplit]
    rcases h : pySplit c rest with _ | ⟨l, ls⟩
    · exact absurd h (pySplit_ne_nil c rest)
    · rw [h] at ih
      by_cases hc : a = c
      · subst hc
        simp only [if_pos rfl, pyJoin]
        cases ls <;> simp_all [pyJoin]
      · simp only [if_neg hc]
        cases ls <;> simp_all [pyJoin]

theorem pySplit_no_sep (c : Char) (y : Str) (hy : ∀ a ∈ y, a ≠ c) :
    pySplit c y = [y] := by
  induction y with
  | nil => rfl
  | cons a rest ih =>
    have ha : a ≠ c := hy a (by simp)
    have ih' := ih (fun b hb => hy b (by simp [hb]))
    simp [pySplit, ih', ha]

theorem pySplit_append_last (c : Char) (x y : Str) (hy : ∀ a ∈ y, a ≠ c) :
    pySplit c (x ++ c :: y) = pySplit c x ++ [y] := by
  induction x with
  | nil =>
    simp [pySplit, pySplit_no_sep c y hy]
  | cons a x' ih =>
    simp only [List.cons_append, pySplit, List.append_eq]
    rw [ih]
    rcases h : pySplit c x' with _ | ⟨l, ls⟩
    · exact absurd h (pySplit_ne_nil c x')
    · by_cases hc : a = c <;> simp [hc]

theorem pySplit_cons_head (c : Char) (a b : Str) (ha : ∀ x ∈ a, x ≠ c) :
    pySplit c (a ++ c :: b) = a :: pySplit c b := by
  induction a with
  | nil =>
    simp only [List.nil_append, pySplit]
    rcases h : pySplit c b with _ | ⟨l, ls⟩
    · exact absurd h (pySplit_ne_nil c b)
    · simp
  | cons x a' ih =>
    have hx : x ≠ c := ha x (by simp)
    have ih' := ih (fun y hy => ha y (by simp [hy]))
    simp only [List.cons_append, pySplit, List.append_eq]
    rw [ih']
    rcases h : pySplit c b with _ | ⟨l, ls⟩
    · exact absurd h (pySplit_ne_nil c b)
    · simp [hx]

theorem dropWhile_append_last (p : Char → Bool) (x : Str) (a : Char)
    (ha : p a = false) : (x ++ [a]).dropWhile p = x.dropWhile p ++ [a] := by
  induction x with
  | nil => simp [List.dropWhile, ha]
  | cons b x' ih =>
    by_cases hb : p b = true
    · simp [List.dropWhile_cons, hb, ih]
    · simp only [Bool.not_eq_true] at hb
      simp [List.dropWhile_cons, hb]

theorem dropWhile_eq_self_of_head (p : Char → Bool) (a : Char) (l : Str)
    (ha : p a = false) : (a :: l).dropWhile p = a :: l := by
  simp [List.dropWhile_cons, ha]

/-- `str.strip()` leaves a string untouched when its first and last
characters are not whitespace. -/
theorem pyStrip_eq_self (a b : Char) (m : Str)
    (h1 : isPyWs a = false) (h2 : isPyWs b = false) :
    pyStrip (a :: (m ++ [b])) = a :: (m ++ [b]) := by
  unfold pyStrip
  rw [dropWhile_eq_self_of_head _ _ _ h1]
  have : (a :: (m ++ [b])).reverse = b :: (m.reverse ++ [a]) := by
    simp
  rw [this, dropWhile_eq_self_of_head _ _ _ h2]
  simp

theorem pyStrip_single (a : Char) (h : isPyWs a = false) :
    pyStrip [a] = [a] := by
  unfold pyStrip
  rw [dropWhile_eq_self_of_head _ _ _ h]
  simp [dropWhile_eq_self_of_head _ _ _ h]

theorem pyStrip_nil : pyStrip [] = [] := rfl

/-- `str.strip()` is idempotent. -/
theorem pyStrip_idem (s : Str) : pyStrip (pyStrip s) = pyStrip s := by
  unfold pyStrip
  set u := s.dropWhile isPyWs with hu
  set w := u.reverse.dropWhile isPyWs with hw
  rcases hcase : w with _ | ⟨a, w'⟩
  · simp [hcase]
  · have ha : isPyWs a = false := by
      have := List.head?_dropWhile_not isPyWs u.reverse
      rw [← hw, hcase] at this
      simpa using this
    have hlast : ∃ h : Char, isPyWs h = false ∧
        ∃ t, w = t ++ [h] := by
      have hsuff : w <:+ u.reverse := List.dropWhile_suffix isPyWs
      have hune : u ≠ [] := by
        intro h
        rw [h] at hw
        simp [List.dropWhile] at hw
        rw [hw] at hcase
        exact List.noConfusion hcase
      rcases hu' : u with _ | ⟨h0, u'⟩
      · exact absurd hu' hune
      · have hh0 : isPyWs h0 = false := by
          have := List.head?_dropWhile_not isPyWs s
          rw [← hu, hu'] at this
          simpa using this
        refine ⟨h0, hh0, ?_⟩
        have hrev : u.reverse = u'.reverse ++ [h0] := by simp [hu']
        rw [hrev] at hw
        rw [hw, dropWhile_append_last _ _ _ hh0]
        exact ⟨u'.reverse.dropWhile isPyWs, rfl⟩
    rcases hlast with ⟨h0, hh0, t, hwt⟩
    rw [← hcase]
    have hwrev : w.reverse.dropWhile isPyWs = w.reverse := by
      rw [hwt]
      simp only [List.reverse_append, List.reverse_cons, List.reverse_nil,
        List.nil_append, List.singleton_append]
      exact dropWhile_eq_self_of_head _ _ _ hh0
    rw [hwrev, List.reverse_reverse]
    have hw2 : w.dropWhile isPyWs = w := by
      rw [hw]
      exact List.dropWhile_idempotent isPyWs u.reverse
    rw [hw2]

/-! ### The fence-stripping cleanup on wrapped responses -/

theorem fence_eq : fence = ['\x60', '\x60', '\x60'] := rfl

theorem fence_no_nl : ∀ a ∈ fence, a ≠ '\n' := by decide

theorem wrap_decomp (tag body : Str) :
    wrapFence tag body =
      '\x60' :: (('\x60' :: '\x60' ::
        (tag ++ '\n' :: body ++ ['\n', '\x60', '\x60'])) ++ ['\x60']) := by
  rw [wrapFence, fence_eq]
  simp

theorem pyStrip_wrap (tag body : Str) :
    pyStrip (wrapFence tag body) = wrapFence tag body := by
  rw [wrap_decomp]
  exact pyStrip_eq_self _ _ _ (by decide) (by decide)

theorem wrap_fence_start (tag body : Str) :
    fence.isPrefixOf (wrapFence tag body) = true := by
  rw [List.isPrefixOf_iff_prefix, wrapFence]
  exact List.prefix_append fence _

theorem wrap_suffix (tag body : Str) :
    fence.isSuffixOf (wrapFence tag body) = true := by
  rw [List.isSuffixOf_iff_suffix]
  have h : wrapFence tag body = (fence ++ tag ++ '\n' :: body ++ ['\n']) ++ fence := by
    simp [wrapFence]
  rw [h]
  exact List.suffix_append _ fence

theorem wrap_lines (tag body : Str) (htag : ∀ a ∈ tag, a ≠ '\n') :
    pySplit '\n' (wrapFence tag body) =
      (fence ++ tag) :: (pySplit '\n' body ++ [fence]) := by
  have h : wrapFence tag body = (fence ++ tag) ++ '\n' :: (body ++ '\n' :: fence) := by
    simp [wrapFence]
  rw [h]
  rw [pySplit_cons_head '\n' (fence ++ tag) _ (by
    intro x hx
    rcases List.mem_append.mp hx with h1 | h2
    · exact fence_no_nl x h1
    · exact htag x h2)]
  rw [pySplit_append_last '\n' body fence fence_no_nl]

/-- On a fenced-wrapped body whose first characters are not a `json` tag,
the cleanup returns exactly the body. -/
theorem stripFences_wrap (tag body : Str) (htag : ∀ a ∈ tag, a ≠ '\n')
    (hj1 : (S "json").isPrefixOf body = false)
    (hj2 : (S "JSON").isPrefixOf body = false) :
    stripFences (wrapFence tag body) = body := by
  rw [stripFences]
  rw [wrap_fence_start, wrap_suffix]
  simp only [Bool.and_self, if_true]
  rw [wrap_lines tag body htag]
  have hlen : ((fence ++ tag) :: (pySplit '\n' body ++ [fence])).length > 2 := by
    have := pySplit_ne_nil '\n' body
    have hpos : 0 < (pySplit '\n' body).length := List.length_pos.mpr this
    simp only [List.length_cons, List.length_append, List.length_singleton]
    omega
  rw [if_pos hlen]
  simp only [List.drop_succ_cons, List.drop_zero, List.dropLast_concat]
  rw [pyJoin_pySplit]
  rw [hj1, hj2]
  simp

/-- The cleanup is the identity when the stripped text is not
fence-delimited. -/
theorem stripFences_no_fence (s : Str)
    (hnf : (fence.isPrefixOf s && fence.isSuffixOf s) = false) :
    stripFences s = s := by
  rw [stripFences, hnf]
  simp

/-- C2, amended.  For every response body that (a) is not itself
fence-delimited after trimming, and (b) does not begin with the characters
`json`/`JSON` (which the tag-removal heuristic of research_client.py lines
72-74 would strip), wrapping it in a fenced code block — with any
newline-free language tag on the opening fence line, in particular `json`
in any capitalisation, or none — hands the JSON parser the identical input,
hence yields the identical parsed value (or failure) as the unwrapped
body. -/
theorem extractValue_wrapFence (parse : Str → Option PyObj) (tag body : Str)
    (htag : ∀ a ∈ tag, a ≠ '\n')
    (hnf : (fence.isPrefixOf (pyStrip body) && fence.isSuffixOf (pyStrip body)) = false)
    (hj1 : (S "json").isPrefixOf body = false)
    (hj2 : (S "JSON").isPrefixOf body = false) :
    extractValue parse (wrapFence tag body) = extractValue parse body := by
  unfold extractValue extractInput
  rw [pyStrip_wrap, stripFences_wrap tag body htag hj1 hj2,
    stripFences_no_fence _ hnf, pyStrip_idem]

/-- Witness for the amended C2: a concrete wrapped JSON array parses to the
same value as its unwrapped form. -/
theorem extractValue_wrapFence_witness :
    (∀ a ∈ S "json", a ≠ '\n') ∧
    extractValue jparse (wrapFence (S "json") (S "[1, 2]")) =
      extractValue jparse (S "[1, 2]") :=
  ⟨by decide,
   extractValue_wrapFence jparse (S "json") (S "[1, 2]")
     (by decide) (by decide) (by decide) (by decide)⟩

/-- C2, counterexample to the claim as stated.  The body `json<newline>[1]`
is a raw response on which the wrapped and unwrapped extractions disagree:
unwrapped it fails JSON parsing, while wrapped (no language tag) the
tag-removal heuristic deletes its first line, so extraction succeeds with
`[1]`.  Traced against research_client.py lines 62-77 and Python
`json.loads`. -/
theorem extractValue_wrap_cex :
    extractValue jparse (wrapFence [] (S "json\n[1]")) ≠
      extractValue jparse (S "json\n[1]") ∧
    extractValue jparse (wrapFence [] (S "json\n[1]")) = some (.arr [.num 1]) ∧
    extractValue jparse (S "json\n[1]") = none := by
  refine ⟨by decide, by decide, by decide⟩

/-! ### Research extraction: grounded vs ungrounded, citations, compose -/

/-- The `error` field of a returned dictionary — the duck-typed failure
discriminant the callers of `ResearchClient` probe (spec section 9). -/
def errOf : PyObj → Option PyObj
  | .obj kvs => pyGet (S "error") kvs
  | _ => none

/-- The `citations` field of a returned dictionary. -/
def citationsOf : PyObj → Option PyObj
  | .obj kvs => pyGet (S "citations") kvs
  | _ => none

theorem errOf_errObj (k d : Str) : errOf (errObj k d) = some (.str k) := rfl

/-- C3, amended.  `research_without_search` omits the trim/fence-stripping
normalization and parses the raw response text directly; on any response
text whose stripped form is not fence-delimited, and on which the JSON
parser is insensitive to the stripped surrounding whitespace (Python's
`json.loads` is, for the JSON whitespace characters), the two operations
either succeed with the identical parsed value or fail with the identical
failure kind (the `error` field of the returned dictionary). -/
theorem research_without_vs_with (parse : Str → Option PyObj) (s : Str)
    (hnf : (fence.isPrefixOf (pyStrip s) && fence.isSuffixOf (pyStrip s)) = false)
    (hws : parse (pyStrip s) = parse s) :
    ((parse s).isSome = true →
      research_without_search parse (.ok s) = research_with_search parse (.ok s)) ∧
    errOf (research_without_search parse (.ok s)) =
      errOf (research_with_search parse (.ok s)) := by
  by_cases hs : s = []
  · subst hs
    simp [research_with_search, research_without_search]
  · simp only [research_with_search, research_without_search, if_neg hs]
    rw [stripFences_no_fence _ hnf, pyStrip_idem, hws]
    cases hp : parse s with
    | none => simp [errOf_errObj]
    | some j => simp

/-- Witness for the amended C3: on a concrete unfenced response both
operations agree. -/
theorem research_without_vs_with_witness :
    (fence.isPrefixOf (pyStrip (S " [1] ")) &&
      fence.isSuffixOf (pyStrip (S " [1] "))) = false ∧
    jparse (pyStrip (S " [1] ")) = jparse (S " [1] ") ∧
    (((jparse (S " [1] ")).isSome = true →
      research_without_search jparse (.ok (S " [1] ")) =
        research_with_search jparse (.ok (S " [1] "))) ∧
     errOf (research_without_search jparse (.ok (S " [1] "))) =
       errOf (research_with_search jparse (.ok (S " [1] ")))) :=
  ⟨by decide, by decide,
   research_without_vs_with jparse (S " [1] ") (by decide) (by decide)⟩

/-- A well-formed research response wrapped in a fenced `json` code block,
exactly as the prompt of `research_with_search` invites the model to
produce. -/
def fencedResearchResponse : Str :=
  S "```json\n\x7b\"analysis\": \"a\", \"key_findings\": []\x7d\n```"

/-- C3, counterexample to the claim as stated.  The extraction contracts are
not identical: on a fenced response `research_with_search` strips the fences
and parses the payload, while `research_without_search` hands the fenced
text straight to `json.loads` and fails (research_client.py line 125 has no
cleanup step), so the two differ — one succeeds, the other reports the
`Invalid JSON response` failure. -/
theorem research_without_vs_with_cex :
    research_with_search jparse (.ok fencedResearchResponse) ≠
      research_without_search jparse (.ok fencedResearchResponse) ∧
    research_with_search jparse (.ok fencedResearchResponse) =
      .obj [(S "analysis", .str (S "a")), (S "key_findings", .arr [])] ∧
    research_without_search jparse (.ok fencedResearchResponse) =
      errObj (S "Invalid JSON response") fencedResearchResponse := by
  refine ⟨by decide, by decide, by decide⟩

/-- C6, amended.  When the response parses to a JSON object,
`research_with_search` succeeds and returns the parsed object verbatim
(research_client.py line 77); in particular a missing `citations` key never
causes a failure — but it also stays missing: the result has no `citations`
field rather than an empty-sequence one. -/
theorem research_with_no_citations (parse : Str → Option PyObj) (s : Str)
    (kvs : List (Str × PyObj)) (hs : s ≠ [])
    (hp : parse (extractInput s) = some (.obj kvs)) :
    research_with_search parse (.ok s) = .obj kvs ∧
    (pyGet (S "citations") kvs = none →
      citationsOf (research_with_search parse (.ok s)) = none) := by
  have h1 : research_with_search parse (.ok s) = .obj kvs := by
    simp only [research_with_search, if_neg hs]
    rw [show parse (pyStrip (stripFences (pyStrip s))) = some (.obj kvs) from hp]
  refine ⟨h1, fun hc => ?_⟩
  rw [h1]
  simpa [citationsOf] using hc

/-- A well-formed JSON object response lacking the `citations` field. -/
def noCitationsResponse : Str :=
  S "\x7b\"analysis\": \"a\", \"key_findings\": []\x7d"

/-- Witness for the amended C6 at a concrete missing-citations response. -/
theorem research_with_no_citations_witness :
    noCitationsResponse ≠ [] ∧
    jparse (extractInput noCitationsResponse) =
      some (.obj [(S "analysis", .str (S "a")), (S "key_findings", .arr [])]) ∧
    (research_with_search jparse (.ok noCitationsResponse) =
      .obj [(S "analysis", .str (S "a")), (S "key_findings", .arr [])] ∧
     (pyGet (S "citations") [(S "analysis", .str (S "a")), (S "key_findings", .arr [])] = none →
      citationsOf (research_with_search jparse (.ok noCitationsResponse)) = none)) :=
  ⟨by decide, by decide,
   research_with_no_citations jparse noCitationsResponse
     [(S "analysis", .str (S "a")), (S "key_findings", .arr [])]
     (by decide) (by decide)⟩

/-- C6, counterexample to the claim as stated.  On a well-formed object
response lacking `citations`, the call succeeds but the result's
`citations` field is absent (`none`), not the empty sequence the claim
promises: the code returns the parsed dictionary as-is and never defaults
the field. -/
theorem research_with_no_citations_cex :
    citationsOf (research_with_search jparse (.ok noCitationsResponse)) ≠
      some (.arr []) ∧
    citationsOf (research_with_search jparse (.ok noCitationsResponse)) = none := by
  refine ⟨by decide, by decide⟩

/-- C5.  The compose step validates only that the parsed value is a
non-empty JSON array: such an array is returned verbatim — its elements are
not inspected, so no per-post length cap is enforced post hoc — and any
other parsed value raises the `Invalid tweet list format` failure (the
spec's `GenerationFailed` kind), wrapped by the outer handler of
research_client.py line 189. -/
theorem generate_thread_spec (parse : Str → Option PyObj) (s : Str)
    (v : PyObj) (hs : s ≠ []) (hp : parse (extractInput s) = some v) :
    generate_thread parse (.ok s) =
      match v with
      | .arr (t :: ts) => .ok (t :: ts)
      | _ => .error (S "Failed to generate thread: Invalid tweet list format") := by
  simp only [generate_thread, if_neg hs]
  rw [show parse (pyStrip (stripFences (pyStrip s))) = some v from hp]
  cases v with
  | null => rfl
  | bool b => rfl
  | num n => rfl
  | str s2 => rfl
  | arr l => cases l with | nil => rfl | cons t ts => rfl
  | obj kvs => rfl

/-- Witness for C5: a concrete two-element array — one element far beyond
the 280-character cap would be returned just the same — comes back
verbatim. -/
theorem generate_thread_spec_witness :
    S "[\"hello\", \"world\"]" ≠ [] ∧
    jparse (extractInput (S "[\"hello\", \"world\"]")) =
      some (.arr [.str (S "hello"), .str (S "world")]) ∧
    generate_thread jparse (.ok (S "[\"hello\", \"world\"]")) =
      .ok [.str (S "hello"), .str (S "world")] :=
  ⟨by decide, by decide,
   generate_thread_spec jparse (S "[\"hello\", \"world\"]")
     (.arr [.str (S "hello"), .str (S "world")]) (by decide) (by decide)⟩

/-! ### The publishing loop -/

instance {ε α : Type} [DecidableEq ε] [DecidableEq α] : DecidableEq (Except ε α) :=
  fun a b =>
    match a, b with
    | .error e1, .error e2 =>
      match decEq e1 e2 with
      | isTrue h => isTrue (h ▸ rfl)
      | isFalse h => isFalse (fun e => by injection e with h2; exact h h2)
    | .ok a1, .ok a2 =>
      match decEq a1 a2 with
      | isTrue h => isTrue (h ▸ rfl)
      | isFalse h => isFalse (fun e => by injection e with h2; exact h h2)
    | .error _, .ok _ => isFalse (fun e => by injection e)
    | .ok _, .error _ => isFalse (fun e => by injection e)

theorem post_thread_loop_fail (api : Nat → TweetCall → Except Str Str) (cause : Str) :
    ∀ (ts : List Str) (k i : Nat) (prev : Option Str) (ids : List Str)
      (log : List TweetCall),
      k < ts.length →
      (∀ j c, j < k → ∃ id, api (i + j) c = .ok id) →
      (∀ c, api (i + k) c = .error cause) →
      (post_thread_loop api ts i prev ids log).1 =
          .error (S "Failed to post thread: " ++ cause) ∧
      (post_thread_loop api ts i prev ids log).2.length = log.length + k + 1 := by
  intro ts
  induction ts with
  | nil => intro k i prev ids log hk _ _; simp at hk
  | cons t ts ih =>
    intro k i prev ids log hk hok hfail
    cases k with
    | zero =>
      have hf := hfail ⟨t, if truthy prev then prev else none⟩
      rw [Nat.add_zero] at hf
      simp only [post_thread_loop]
      rw [hf]
      simp
    | succ k' =>
      obtain ⟨id0, h0⟩ := hok 0 ⟨t, if truthy prev then prev else none⟩ (Nat.succ_pos k')
      rw [Nat.add_zero] at h0
      simp only [post_thread_loop]
      rw [h0]
      have hrec := ih k' (i + 1) (some id0) (ids ++ [id0])
        (log ++ [⟨t, if truthy prev then prev else none⟩])
        (by simpa using Nat.lt_of_succ_lt_succ hk)
        (fun j c hj => by
          obtain ⟨id, hid⟩ := hok (j + 1) c (Nat.succ_lt_succ hj)
          exact ⟨id, by rwa [show i + (j + 1) = i + 1 + j by omega] at hid⟩)
        (fun c => by
          have := hfail c
          rwa [show i + (k' + 1) = i + 1 + k' by omega] at this)
      refine ⟨hrec.1, ?_⟩
      rw [hrec.2]
      simp
      omega

/-- C1, amended.  A platform failure at index k aborts the loop at once:
exactly the calls for posts 0..k are issued (none beyond k), and the
operation raises a `TwitterAPIError` whose content is only the message
`Failed to post thread: ` followed by the cause — the ids already assigned
to posts 0..k-1 are discarded, not reported (twitter_client.py lines
54-73 collect them in a local that the `raise` does not mention). -/
theorem post_thread_abort (api : Nat → TweetCall → Except Str Str)
    (ts : List Str) (k : Nat) (cause : Str) (hk : k < ts.length)
    (hok : ∀ j c, j < k → ∃ id, api j c = .ok id)
    (hfail : ∀ c, api k c = .error cause) :
    (post_thread api ts).1 = .error (S "Failed to post thread: " ++ cause) ∧
    (post_thread api ts).2.length = k + 1 := by
  unfold post_thread
  have := post_thread_loop_fail api cause ts k 0 none [] [] hk
    (fun j c hj => by simpa using hok j c hj)
    (fun c => by simpa using hfail c)
  simpa using this

/-- A platform oracle that assigns id `100` to the first call and raises on
every later one. -/
def apiA : Nat → TweetCall → Except Str Str :=
  fun i _ => if i = 0 then .ok (S "100") else .error (S "boom")

/-- Like `apiA` but assigning id `200` to the first call. -/
def apiB : Nat → TweetCall → Except Str Str :=
  fun i _ => if i = 0 then .ok (S "200") else .error (S "boom")

/-- Witness for the amended C1: three posts, failure at index 1 — the raised
message carries the cause and exactly two calls were issued. -/
theorem post_thread_abort_witness :
    1 < ([S "a", S "b", S "c"] : List Str).length ∧
    ((post_thread apiA [S "a", S "b", S "c"]).1 =
        .error (S "Failed to post thread: " ++ S "boom") ∧
     (post_thread apiA [S "a", S "b", S "c"]).2.length = 1 + 1) :=
  ⟨by decide,
   post_thread_abort apiA [S "a", S "b", S "c"] 1 (S "boom") (by decide)
     (fun j c hj => ⟨S "100", by
        have hj0 : j = 0 := Nat.lt_one_iff.mp hj
        subst hj0
        rfl⟩)
     (fun c => rfl)⟩

/-- C1, counterexample to the claim as stated.  Two runs over the same two
posts differ in the id the platform assigned to post 0 (`100` vs `200`,
visible in the second call's reply-to reference), yet the reported failure
values are identical, so the report cannot contain `completedIds` equal to
the ids assigned to posts 0..k-1: the code raises a `TwitterAPIError`
carrying only a message (twitter_client.py line 73) and discards the
collected `tweet_ids`. -/
theorem post_thread_report_cex :
    (post_thread apiA [S "a", S "b"]).1 = (post_thread apiB [S "a", S "b"]).1 ∧
    ((post_thread apiA [S "a", S "b"]).2[1]?).map TweetCall.reply_to =
      some (some (S "100")) ∧
    ((post_thread apiB [S "a", S "b"]).2[1]?).map TweetCall.reply_to =
      some (some (S "200")) := by
  refine ⟨by decide, by decide, by decide⟩

theorem post_thread_loop_ok (f : Nat → Str) :
    ∀ (ts : List Str) (i : Nat) (prev : Option Str) (ids : List Str)
      (log : List TweetCall),
      post_thread_loop (fun j _ => .ok (f j)) ts i prev ids log =
        (.ok (ids ++ (List.range ts.length).map (fun m => f (i + m))),
         log ++ expCalls f ts i prev) := by
  intro ts
  induction ts with
  | nil => intro i prev ids log; simp [post_thread_loop, expCalls]
  | cons t ts ih =>
    intro i prev ids log
    simp only [post_thread_loop]
    rw [ih]
    have harg : ((fun m => f (i + m)) ∘ Nat.succ) = (fun m => f (i + 1 + m)) := by
      funext m
      simp only [Function.comp_apply]
      congr 1
      omega
    simp only [expCalls, List.length_cons, List.range_succ_eq_map, List.map_cons,
      List.map_map, Nat.add_zero, List.append_assoc, List.singleton_append]
    rw [harg]

theorem expCalls_length (f : Nat → Str) :
    ∀ (ts : List Str) (i : Nat) (prev : Option Str),
      (expCalls f ts i prev).length = ts.length := by
  intro ts
  induction ts with
  | nil => intro i prev; rfl
  | cons t ts ih => intro i prev; simp [expCalls, ih]

theorem expCalls_get (f : Nat → Str) (hne : ∀ j, f j ≠ []) :
    ∀ (ts : List Str) (i : Nat) (prev : Option Str) (m : Nat) (call : TweetCall),
      (expCalls f ts i prev)[m]? = some call →
      ts[m]? = some call.text ∧
      call.reply_to = (if m = 0 then (if truthy prev then prev else none)
                       else some (f (i + m - 1))) := by
  intro ts
  induction ts with
  | nil => intro i prev m call h; simp [expCalls] at h
  | cons t ts ih =>
    intro i prev m call h
    cases m with
    | zero =>
      simp only [expCalls, List.getElem?_cons_zero, Option.some.injEq] at h
      subst h
      simp
    | succ m' =>
      simp only [expCalls, List.getElem?_cons_succ] at h
      have hrec := ih (i + 1) (some (f i)) m' call h
      refine ⟨by simpa using hrec.1, ?_⟩
      rw [hrec.2]
      cases m' with
      | zero =>
        have htr : truthy (some (f i)) = true := by
          simp [truthy, List.isEmpty_iff, hne i]
        simp [htr]
      | succ m'' =>
        have h1 : ¬ (m'' + 1 = 0) := Nat.succ_ne_zero m''
        have h2 : ¬ (m'' + 1 + 1 = 0) := Nat.succ_ne_zero (m'' + 1)
        rw [if_neg h1, if_neg h2]
        congr 2
        omega

/-- C4.  Against a platform that succeeds on every call, assigning
(necessarily non-empty) id `f j` to the j-th call, publishing returns
exactly one id per input post in input order; the call transcript has one
call per post, the call for post 0 carries no reply-to reference, and the
call for post m > 0 carries reply-to equal to the id assigned to post
m-1. -/
theorem post_thread_success (f : Nat → Str) (ts : List Str)
    (hne : ∀ j, f j ≠ []) :
    (post_thread (fun j _ => .ok (f j)) ts).1 =
        .ok ((List.range ts.length).map f) ∧
    (post_thread (fun j _ => .ok (f j)) ts).2.length = ts.length ∧
    (∀ m call, (post_thread (fun j _ => .ok (f j)) ts).2[m]? = some call →
      ts[m]? = some call.text ∧
      call.reply_to = if m = 0 then none else some (f (m - 1))) := by
  unfold post_thread
  rw [post_thread_loop_ok]
  simp only [List.nil_append]
  have hz : (fun m => f (0 + m)) = f := by
    funext m
    rw [Nat.zero_add]
  refine ⟨by rw [hz], expCalls_length f ts 0 none, ?_⟩
  intro m call h
  have hrec := expCalls_get f hne ts 0 none m call h
  refine ⟨hrec.1, ?_⟩
  rw [hrec.2]
  cases m with
  | zero => simp [truthy]
  | succ m' => simp

/-- Witness for C4: two posts against a platform assigning non-empty ids
`1`, `10` — the run returns both ids in order, issues two calls, the first
with no reply-to and the second replying to the first id. -/
theorem post_thread_success_witness :
    (post_thread (fun j _ => .ok ('1' :: List.replicate j '0')) [S "a", S "b"]).1 =
        .ok ((List.range 2).map (fun j => '1' :: List.replicate j '0')) ∧
    (post_thread (fun j _ => .ok ('1' :: List.replicate j '0')) [S "a", S "b"]).2.length = 2 ∧
    (∀ m call,
      (post_thread (fun j _ => .ok ('1' :: List.replicate j '0')) [S "a", S "b"]).2[m]? =
        some call →
      ([S "a", S "b"] : List Str)[m]? = some call.text ∧
      call.reply_to = if m = 0 then none
        else some ('1' :: List.replicate (m - 1) '0')) :=
  post_thread_success (fun j => '1' :: List.replicate j '0') [S "a", S "b"]
    (fun j => List.cons_ne_nil '1' (List.replicate j '0'))

/-! ### Persistence: append-only save, lenient load, schema mismatches -/

theorem from_dict_to_dict (t : Thread) : Thread.from_dict t.to_dict = some t := by
  cases t
  rfl

theorem fromDictList_append_single (l : List PyObj) (ts : List Thread)
    (d : PyObj) (hl : fromDictList l = some ts) :
    fromDictList (l ++ [d]) =
      (Thread.from_dict d).map (fun t => ts ++ [t]) := by
  induction l generalizing ts with
  | nil =>
    simp only [fromDictList] at hl
    cases hl
    simp only [List.nil_append, fromDictList]
    cases Thread.from_dict d <;> rfl
  | cons a l ih =>
    simp only [fromDictList] at hl
    cases ha : Thread.from_dict a with
    | none => rw [ha] at hl; exact absurd hl (by simp)
    | some t0 =>
      rw [ha] at hl
      cases hrest : fromDictList l with
      | none => rw [hrest] at hl; exact absurd hl (by simp)
      | some ts0 =>
        rw [hrest] at hl
        simp only [Option.some.injEq] at hl
        subst hl
        simp only [List.cons_append, fromDictList, ha, List.append_eq]
        rw [ih ts0 hrest]
        cases Thread.from_dict d <;> rfl

theorem fromDictList_isSome_of_forall (l : List PyObj)
    (hl : ∀ d ∈ l, (Thread.from_dict d).isSome = true) :
    ∃ ts, fromDictList l = some ts := by
  induction l with
  | nil => exact ⟨[], rfl⟩
  | cons a l ih =>
    obtain ⟨ts0, hts0⟩ := ih (fun d hd => hl d (by simp [hd]))
    have ha := hl a (by simp)
    cases h : Thread.from_dict a with
    | none => rw [h] at ha; simp at ha
    | some t0 => exact ⟨t0 :: ts0, by simp [fromDictList, h, hts0]⟩

theorem fromDictList_none_of_mem (l : List PyObj) (d : PyObj)
    (hmem : d ∈ l) (hd : Thread.from_dict d = none) :
    fromDictList l = none := by
  induction l with
  | nil => simp at hmem
  | cons a l ih =>
    rcases List.mem_cons.mp hmem with h | h
    · subst h
      simp [fromDictList, hd]
    · simp only [fromDictList, ih h]
      cases Thread.from_dict a <;> rfl

/-- C7.  `save_thread` is append-only: from any prior on-disk history —
a stored array, or an absent or unparseable file read as the empty
history — it writes back exactly the prior entries unchanged with the
serialized thread as a single new last entry; consequently saving a thread
and then saving an updated version of it (any `t'`, e.g. `t` with
`tweet_ids` filled in) yields two entries, a duplicate rather than an
in-place update. -/
theorem save_thread_append (l : List PyObj) (t t' : Thread) :
    save_thread (.content (.arr l)) t = .ok (.content (.arr (l ++ [t.to_dict]))) ∧
    save_thread .absent t = .ok (.content (.arr [t.to_dict])) ∧
    save_thread .corrupt t = .ok (.content (.arr [t.to_dict])) ∧
    save_thread (.content (.arr (l ++ [t.to_dict]))) t' =
      .ok (.content (.arr (l ++ [t.to_dict, t'.to_dict]))) := by
  refine ⟨rfl, rfl, rfl, ?_⟩
  simp [save_thread]

/-- C8.  Saving a thread onto a loadable history and loading back yields
the saved thread as the last entry, field-for-field: `topic`, `tweets`,
`research_data`, `tweet_ids` and `created_at` (the timestamp round-trips
exactly through `isoformat`/`fromisoformat` at microsecond precision,
which the model captures by storing the ISO string). -/
theorem save_load_roundtrip (l : List PyObj) (t : Thread)
    (hl : ∀ d ∈ l, (Thread.from_dict d).isSome = true) :
    save_thread (.content (.arr l)) t = .ok (.content (.arr (l ++ [t.to_dict]))) ∧
    ∃ ts, load_threads (.content (.arr (l ++ [t.to_dict]))) = .ok ts ∧
      ts.getLast? = some t := by
  refine ⟨rfl, ?_⟩
  obtain ⟨ts0, hts0⟩ := fromDictList_isSome_of_forall l hl
  refine ⟨ts0 ++ [t], ?_, ?_⟩
  · simp only [load_threads, pyIter]
    rw [fromDictList_append_single l ts0 t.to_dict hts0, from_dict_to_dict]
    rfl
  · simp

/-- A concrete draft thread, as `research_and_generate` builds it. -/
def sampleThread : Thread :=
  ⟨.str (S "quantum computing"),
   .arr [.str (S "Tweet 1 about quantum"), .str (S "Tweet 2 #quantum")],
   .obj [(S "analysis", .str (S "a")), (S "key_findings", .arr [])],
   S "2024-01-01T12:30:45.123456",
   .null⟩

/-- Witness for C8 on an empty prior history and a concrete thread. -/
theorem save_load_roundtrip_witness :
    (∀ d ∈ ([] : List PyObj), (Thread.from_dict d).isSome = true) ∧
    (save_thread (.content (.arr [])) sampleThread =
        .ok (.content (.arr ([] ++ [sampleThread.to_dict]))) ∧
     ∃ ts, load_threads (.content (.arr ([] ++ [sampleThread.to_dict]))) = .ok ts ∧
        ts.getLast? = some sampleThread) :=
  ⟨by simp,
   save_load_roundtrip [] sampleThread (by simp)⟩

/-- C9.  Loading from an absent file or one whose content fails JSON
parsing returns the empty sequence rather than raising. -/
theorem load_threads_lenient :
    load_threads .absent = .ok [] ∧ load_threads .corrupt = .ok [] :=
  ⟨rfl, rfl⟩

theorem from_dict_missing (kvs : List (Str × PyObj))
    (hmiss : pyGet (S "topic") kvs = none ∨ pyGet (S "tweets") kvs = none ∨
      pyGet (S "research_data") kvs = none ∨ pyGet (S "created_at") kvs = none) :
    Thread.from_dict (.obj kvs) = none := by
  simp only [Thread.from_dict]
  rcases h1 : pyGet (S "topic") kvs with _ | v1 <;>
    rcases h2 : pyGet (S "tweets") kvs with _ | v2 <;>
      rcases h3 : pyGet (S "research_data") kvs with _ | v3 <;>
        rcases h4 : pyGet (S "created_at") kvs with _ | v4 <;>
          simp_all

/-- C10.  When the file holds a well-formed JSON array but some entry is an
object missing one of the required fields `topic`, `tweets`,
`research_data`, `created_at`, loading raises `ThreadStorageError` (the
`KeyError` escapes the `except (FileNotFoundError, json.JSONDecodeError)`
clause of thread_generator.py line 144): the missing-or-corrupt leniency
covers only an absent file or a JSON parse failure, not a schema
mismatch. -/
theorem load_threads_schema_mismatch (ds : List PyObj)
    (kvs : List (Str × PyObj)) (hmem : PyObj.obj kvs ∈ ds)
    (hmiss : pyGet (S "topic") kvs = none ∨ pyGet (S "tweets") kvs = none ∨
      pyGet (S "research_data") kvs = none ∨ pyGet (S "created_at") kvs = none) :
    load_threads (.content (.arr ds)) = .error () := by
  simp only [load_threads, pyIter]
  rw [fromDictList_none_of_mem ds (PyObj.obj kvs) hmem
    (from_dict_missing kvs hmiss)]

/-- Witness for C10: a one-entry history whose entry is an empty object. -/
theorem load_threads_schema_mismatch_witness :
    PyObj.obj [] ∈ [PyObj.obj []] ∧
    load_threads (.content (.arr [PyObj.obj []])) = .error () :=
  ⟨by decide,
   load_threads_schema_mismatch [PyObj.obj []] [] (by decide) (Or.inl rfl)⟩
